import Mathlib

/- Shallow embedding of the peep-chat console client, src/console-go/main.go.

   The program is a small libp2p chat node.  The parts the verification
   covers are: the offline mailbox built on the DHT collaborator
   (storeOfflineMessage, fetchOfflineMessages), the inbound stream handler
   registered with SetStreamHandler, the direct-message sender
   (sendMessage), the invite printing and connecting (printInvite,
   connectPeer) and the identity bootstrap (loadOrCreateIdentity).

   External collaborators are embedded as explicit state plus behaviour
   oracles: the DHT is a table from keys to blobs with per-key failure
   oracles for GetValue and PutValue; the transport is a set of success
   oracles; the filesystem is a table from paths to file records.  The Go
   encoding/json library is embedded at two levels: mailbox values (Go
   []Message) are an abstract blob type whose round trip is the library's
   contract, while single wire frames are modelled concretely down to the
   characters, because the stream handler trims and parses raw lines. -/

namespace P2pChat

/-- The three-field message record, struct Message in main.go, with JSON
tags from/when/body.  When is an epoch-milliseconds timestamp (int64 in
the source). -/
structure Message where
  From : String
  When : Int
  Body : String
deriving DecidableEq

/-- Wire protocol tag, constant protocolID in main.go. -/
def protocolID : String := "/p2pchat/1.0.0"

/-- Mailbox key base, constant dhtMsgKeyPrefix in main.go; the mailbox key
for a recipient is this string concatenated with the recipient peer id. -/
def dhtMsgKeyBase : String := "/p2pchat/messages/"

/-- A value stored in the DHT under a mailbox key, as seen through
json.Marshal and json.Unmarshal of a Go []Message: either the
serialization of a message sequence, or bytes that fail to deserialize.
That marshalling followed by unmarshalling restores the sequence is the
json library's round-trip contract. -/
inductive Blob where
  | msgsBlob (msgs : List Message)
  | corruptBlob
deriving DecidableEq

/-- json.Marshal of a Go []Message. -/
def jsonMarshalMsgs (msgs : List Message) : Blob := Blob.msgsBlob msgs

/-- json.Unmarshal of a blob into a Go []Message; none is a
deserialization error. -/
def jsonUnmarshalMsgs : Blob → Option (List Message)
  | Blob.msgsBlob msgs => some msgs
  | Blob.corruptBlob => none

/-- Reasons dht.GetValue can fail: the key has no value
(routing.ErrNotFound) or some other lookup failure, for example a
transient routing error. -/
inductive GetErr where
  | notFound
  | other
deriving DecidableEq

/-- State and failure behaviour of the DHT collaborator: the stored table
plus oracles deciding, per key, whether GetValue fails transiently and
whether PutValue fails. -/
structure DHT where
  table : String → Option Blob
  getFails : String → Bool
  putFails : String → Bool

/-- dht.GetValue: a transient failure reports GetErr.other; an absent key
reports GetErr.notFound; otherwise the stored blob is returned. -/
def GetValue (d : DHT) (key : String) : Except GetErr Blob :=
  if d.getFails key then Except.error GetErr.other
  else
    match d.table key with
    | none => Except.error GetErr.notFound
    | some b => Except.ok b

/-- dht.PutValue: fails when the put oracle says so, otherwise stores the
blob under the key (whole-value replacement). -/
def PutValue (d : DHT) (key : String) (v : Blob) : Except Unit DHT :=
  if d.putFails key then Except.error ()
  else Except.ok { d with table := fun k => if k = key then some v else d.table k }

inductive StoreErr where
  | putErr
deriving DecidableEq

/-- storeOfflineMessage, main.go lines 283-300.  The key is dhtMsgKeyBase
concatenated with the recipient id.  Only a successful GetValue is
deserialized, and the source discards the deserialization error
(the statement is written as underscore assignment of json.Unmarshal), so
both a failed Get and a corrupt blob leave the starting sequence empty.
The new message is appended and the whole sequence is put back; only a
PutValue failure is returned as an error. -/
def storeOfflineMessage (d : DHT) (recipientPeerID fromID body : String)
    (now : Int) : Except StoreErr DHT :=
  let key := dhtMsgKeyBase ++ recipientPeerID
  let msgs : List Message :=
    match GetValue d key with
    | Except.ok val =>
        match jsonUnmarshalMsgs val with
        | some m => m
        | none => []
    | Except.error _ => []
  let msgs' := msgs ++ [⟨fromID, now, body⟩]
  match PutValue d key (jsonMarshalMsgs msgs') with
  | Except.error _ => Except.error StoreErr.putErr
  | Except.ok d' => Except.ok d'

inductive FetchErr where
  | noMessagesOrError (e : GetErr)
  | unmarshalErr
deriving DecidableEq

/-- fetchOfflineMessages, main.go lines 302-317.  A GetValue failure is
wrapped as the no-messages-or-error failure carrying the underlying
reason; a present blob that fails to deserialize is returned as the json
error; otherwise the decoded sequence is listed in stored order. -/
def fetchOfflineMessages (d : DHT) (peerID : String) :
    Except FetchErr (List Message) :=
  let key := dhtMsgKeyBase ++ peerID
  match GetValue d key with
  | Except.error e => Except.error (FetchErr.noMessagesOrError e)
  | Except.ok val =>
      match jsonUnmarshalMsgs val with
      | none => Except.error FetchErr.unmarshalErr
      | some msgs => Except.ok msgs

/-- ASCII whitespace recognized by strings.TrimSpace (the ASCII fragment
of unicode.IsSpace: space, tab, newline, carriage return, vertical tab,
form feed). -/
def isSpaceChar (c : Char) : Bool :=
  c == ' ' || c == '\t' || c == '\n' || c == '\r' ||
    c == '\x0b' || c == '\x0c'

/-- strings.TrimSpace: strip leading and trailing whitespace. -/
def trimSpace (s : String) : String :=
  String.mk (((s.toList.dropWhile isSpaceChar).reverse.dropWhile isSpaceChar).reverse)

/-- JSON string escaping performed by json.Marshal, for the characters
that matter here: quote, backslash and the common control characters each
become a two-character escape; every other character is kept as is. -/
def escChar (c : Char) : List Char :=
  if c = '"' then ['\\', '"']
  else if c = '\\' then ['\\', '\\']
  else if c = '\n' then ['\\', 'n']
  else if c = '\r' then ['\\', 'r']
  else if c = '\t' then ['\\', 't']
  else [c]

def escChars : List Char → List Char
  | [] => []
  | c :: cs => escChar c ++ escChars cs

def escString (s : String) : String := String.mk (escChars s.toList)

def digitChar (n : Nat) : Char := Char.ofNat (48 + n)

/-- Decimal digits of a natural number, most significant first. -/
def natToDigits (n : Nat) : List Char :=
  if _h : n < 10 then [digitChar n]
  else natToDigits (n / 10) ++ [digitChar (n % 10)]
termination_by n
decreasing_by exact Nat.div_lt_self (by omega) (by omega)

/-- Decimal rendering of an integer, as json.Marshal renders an int64. -/
def intRepr (i : Int) : String :=
  if i < 0 then String.mk ('-' :: natToDigits i.natAbs)
  else String.mk (natToDigits i.natAbs)

/-- json.Marshal of one Message: the three fields in struct order under
their JSON tags. -/
def jsonMarshalMsg (m : Message) : String :=
  "\x7b\"from\":\"" ++ escString m.From ++ "\",\"when\":" ++ intRepr m.When
    ++ ",\"body\":\"" ++ escString m.Body ++ "\"\x7d"

/-- Expect a literal character sequence, returning the remainder. -/
def expectChars : List Char → List Char → Option (List Char)
  | [], cs => some cs
  | _ :: _, [] => none
  | p :: ps, c :: cs => if c = p then expectChars ps cs else none

def unescChar (c : Char) : Option Char :=
  if c = '"' then some '"'
  else if c = '\\' then some '\\'
  else if c = 'n' then some '\n'
  else if c = 'r' then some '\r'
  else if c = 't' then some '\t'
  else none

/-- Parse the body of a JSON string literal up to and including its
closing quote, undoing the escapes of escChar. -/
def parseStrBody : List Char → Option (List Char × List Char)
  | [] => none
  | '"' :: rest => some ([], rest)
  | '\\' :: c :: rest =>
      match unescChar c with
      | none => none
      | some e =>
          match parseStrBody rest with
          | none => none
          | some (cs, r) => some (e :: cs, r)
  | '\\' :: [] => none
  | c :: rest =>
      match parseStrBody rest with
      | none => none
      | some (cs, r) => some (c :: cs, r)

def parseNat (cs : List Char) : Option (Nat × List Char) :=
  let ds := cs.takeWhile (fun c => c.isDigit)
  let rest := cs.dropWhile (fun c => c.isDigit)
  if ds.isEmpty then none
  else some (ds.foldl (fun n c => n * 10 + (c.toNat - 48)) 0, rest)

def parseIntTok (cs : List Char) : Option (Int × List Char) :=
  match cs with
  | '-' :: rest =>
      match parseNat rest with
      | none => none
      | some (n, r) => some (-(n : Int), r)
  | _ =>
      match parseNat cs with
      | none => none
      | some (n, r) => some ((n : Int), r)

/-- json.Unmarshal of one wire frame into a Message, in the canonical
field order produced by jsonMarshalMsg.  The Go decoder also accepts
reordered fields and extra whitespace; the handler properties proved
below are parametric in which lines parse, so only the canonical form and
the failure cases are needed concretely. -/
def jsonUnmarshalMsg (s : String) : Option Message :=
  match expectChars ("\x7b\"from\":\"".toList) s.toList with
  | none => none
  | some r1 =>
      match parseStrBody r1 with
      | none => none
      | some (fromCs, r2) =>
          match expectChars (",\"when\":".toList) r2 with
          | none => none
          | some r3 =>
              match parseIntTok r3 with
              | none => none
              | some (w, r4) =>
                  match expectChars (",\"body\":\"".toList) r4 with
                  | none => none
                  | some r5 =>
                      match parseStrBody r5 with
                      | none => none
                      | some (bodyCs, r6) =>
                          if r6 = ['\x7d'] then
                            some ⟨String.mk fromCs, w, String.mk bodyCs⟩
                          else none

/-- The inbound stream handler registered with SetStreamHandler, main.go
lines 80-100.  The handler reads complete newline-delimited lines until
end of stream or a read error (either way the loop just returns, which
the end of the list models; a final partial read is dropped before
parsing because the source checks the read error first).  Each line is
trimmed, then parsed; a parsed message is dispatched (first component, in
order) and a malformed line is reported with its trimmed text (second
component) and skipped, the loop continuing either way. -/
def handleStream : List String → List Message × List String
  | [] => ([], [])
  | line :: rest =>
      let t := trimSpace line
      match jsonUnmarshalMsg t with
      | none =>
          let r := handleStream rest
          (r.1, t :: r.2)
      | some m =>
          let r := handleStream rest
          (m :: r.1, r.2)

/-- One invite line as printInvite builds it, main.go line 218: the
address followed by the /p2p/ delimiter and the peer id. -/
def inviteLine (a pid : String) : String := a ++ "/p2p/" ++ pid

/-- printInvite, main.go lines 209-221: one invite line per listen
address. -/
def printInvite (addrs : List String) (pid : String) : List String :=
  addrs.map (fun a => inviteLine a pid)

def p2pPat : List Char := ['/', 'p', '2', 'p', '/']

/-- Split a character sequence at the last occurrence of the /p2p/
delimiter: the part before it and the part after it. -/
def splitLastP2p : List Char → Option (List Char × List Char)
  | [] => none
  | c :: rest =>
      match splitLastP2p rest with
      | some (pre, suf) => some (c :: pre, suf)
      | none =>
          if p2pPat <+: (c :: rest) then some ([], rest.drop 4)
          else none

/-- peer.AddrInfoFromP2pAddr: split at the last /p2p/ component; the
suffix must be a nonempty peer id with no further component. -/
def decodeInvite (s : String) : Option (String × String) :=
  match splitLastP2p s.toList with
  | none => none
  | some (pre, suf) =>
      if suf = [] ∨ '/' ∈ suf then none
      else some (String.mk pre, String.mk suf)

/-- ma.NewMultiaddr, modelled by the leading-slash requirement of the
multiaddr grammar. -/
def maValid (s : String) : Bool := s.toList.head? == some '/'

/-- Address validity marker in the peerstore;
peerstore.PermanentAddrTTL against ordinary expiring entries. -/
inductive AddrTTL where
  | permanent
  | temporary
deriving DecidableEq

inductive ConnectErr where
  | parseErr
  | addrInfoErr
  | connectFailed
deriving DecidableEq

/-- Host-side state touched by connectPeer: the peerstore address lists
and the transport connect oracle. -/
structure HostState where
  peerstoreAddrs : String → List (String × AddrTTL)
  connectOK : String → Bool

/-- connectPeer, main.go lines 235-259: parse the multiaddr (on failure
the source retries the identical parse when the string contains the
/p2p/ delimiter, which cannot change the outcome, then returns the
error), extract the peer info, add the address under the permanent TTL
with Peerstore().AddAddrs, then Connect; a connect failure is returned
with the registration left in place.  The result pairs the final host
state with the returned error, if any. -/
def connectPeer (h : HostState) (addrStr : String) :
    HostState × Option ConnectErr :=
  if maValid addrStr = false then (h, some ConnectErr.parseErr)
  else
    match decodeInvite addrStr with
    | none => (h, some ConnectErr.addrInfoErr)
    | some (addr, pid) =>
        let h' : HostState := { h with
          peerstoreAddrs := fun q =>
            if q = pid then h.peerstoreAddrs q ++ [(addr, AddrTTL.permanent)]
            else h.peerstoreAddrs q }
        if h.connectOK pid then (h', none)
        else (h', some ConnectErr.connectFailed)

inductive SendErr where
  | decodeErr
  | streamErr
  | writeErr
deriving DecidableEq

/-- Collaborator behaviour for sendMessage: whether the peer id string
decodes, whether a stream to the peer opens, and whether the write
succeeds. -/
structure SendEnv where
  peerDecodeOK : String → Bool
  streamOK : String → Bool
  writeOK : String → Bool

/-- Observable effects of one sendMessage call: the error returned, the
streams opened as pairs of peer and protocol tag, the frames fully
written, and how many times the stream was closed. -/
structure SendResult where
  err : Option SendErr
  opened : List (String × String)
  written : List String
  closes : Nat

/-- sendMessage, main.go lines 261-281: decode the peer id, open one
stream under protocolID, marshal a Message carrying the local id as
sender and the current epoch-millisecond time, append the newline and
write the single frame; the deferred Close runs on every path after the
stream was opened, success or failure. -/
def sendMessage (env : SendEnv) (localID : String) (now : Int)
    (peerIDStr body : String) : SendResult :=
  if env.peerDecodeOK peerIDStr = false then
    { err := some SendErr.decodeErr, opened := [], written := [], closes := 0 }
  else if env.streamOK peerIDStr = false then
    { err := some SendErr.streamErr, opened := [], written := [], closes := 0 }
  else if env.writeOK peerIDStr = false then
    { err := some SendErr.writeErr, opened := [(peerIDStr, protocolID)],
      written := [], closes := 1 }
  else
    { err := none, opened := [(peerIDStr, protocolID)],
      written := [jsonMarshalMsg ⟨localID, now, body⟩ ++ "\n"], closes := 1 }

/-- Serialized long-term key material: a marshalled private key or bytes
that crypto.UnmarshalPrivateKey rejects.  The key material itself is
abstracted as a natural number. -/
inductive KeyBlob where
  | marshalled (k : Nat)
  | corrupt
deriving DecidableEq

def marshalPrivateKey (k : Nat) : KeyBlob := KeyBlob.marshalled k

def unmarshalPrivateKey : KeyBlob → Option Nat
  | KeyBlob.marshalled k => some k
  | KeyBlob.corrupt => none

/-- The peer identifier the libp2p collaborator derives deterministically
from key material: a pure function of the key. -/
def peerIDFromKey (k : Nat) : String := "Peer" ++ toString k

/-- An on-disk file: contents plus the unix mode it was created with. -/
structure FileRec where
  data : KeyBlob
  mode : Nat
deriving DecidableEq

/-- Filesystem state and failure oracles for loadOrCreateIdentity.  The
source treats a successful os.Stat as existence, so existence is a table
lookup here. -/
structure FS where
  files : String → Option FileRec
  readFails : String → Bool
  writeFails : String → Bool

inductive IdErr where
  | ioReadErr
  | keyFormatErr
  | ioWriteErr
deriving DecidableEq

/-- loadOrCreateIdentity, main.go lines 180-207: when a record exists at
the path it is read and unmarshalled and no key is generated; otherwise a
fresh key (the randomness argument) is generated, marshalled and written
with mode 0o600.  Returns the key together with the resulting
filesystem. -/
def loadOrCreateIdentity (fs : FS) (freshKey : Nat) (path : String) :
    Except IdErr (Nat × FS) :=
  match fs.files path with
  | some f =>
      if fs.readFails path then Except.error IdErr.ioReadErr
      else
        match unmarshalPrivateKey f.data with
        | none => Except.error IdErr.keyFormatErr
        | some k => Except.ok (k, fs)
  | none =>
      if fs.writeFails path then Except.error IdErr.ioWriteErr
      else
        Except.ok (freshKey,
          { fs with files := fun q =>
              if q = path then some ⟨marshalPrivateKey freshKey, 0o600⟩
              else fs.files q })

/- Helper lemmas -/

theorem toList_append (a b : String) : (a ++ b).toList = a.toList ++ b.toList := by
  cases a; cases b; rfl

theorem toList_mk (l : List Char) : (String.mk l).toList = l := rfl

/- Mailbox theorems -/

/-- C1, counterexample to the claim as stated: with a corrupt blob stored
under the mailbox key and a DHT whose Get and Put both succeed,
storeOfflineMessage does not return an error; it proceeds as if the
mailbox were empty and overwrites the key with the single new message. -/
theorem store_corrupt_claim_false :
    (storeOfflineMessage
        { table := fun k => if k = dhtMsgKeyBase ++ "X" then some Blob.corruptBlob else none,
          getFails := fun _ => false, putFails := fun _ => false }
        "X" "A" "hi" 0).toOption.map
      (fun d => d.table (dhtMsgKeyBase ++ "X")) =
    some (some (Blob.msgsBlob [⟨"A", 0, "hi"⟩])) := by
  decide

/-- C1, amended: when the Get for the mailbox key returns a blob that
fails to deserialize, storeOfflineMessage discards the deserialization
error and proceeds from the empty sequence: it succeeds and its Put
overwrites the mailbox with only the newly appended message. -/
theorem store_corrupt_treated_empty (d : DHT) (X A b : String) (now : Int)
    (hg : d.getFails (dhtMsgKeyBase ++ X) = false)
    (hc : d.table (dhtMsgKeyBase ++ X) = some Blob.corruptBlob)
    (hp : d.putFails (dhtMsgKeyBase ++ X) = false) :
    ∃ d', storeOfflineMessage d X A b now = Except.ok d' ∧
      d'.table (dhtMsgKeyBase ++ X) = some (Blob.msgsBlob [⟨A, now, b⟩]) := by
  refine ⟨{ d with table := (fun k =>
      if k = dhtMsgKeyBase ++ X then some (Blob.msgsBlob [⟨A, now, b⟩])
      else d.table k) }, ?_, ?_⟩
  · unfold storeOfflineMessage GetValue PutValue jsonUnmarshalMsgs jsonMarshalMsgs
    simp [hg, hc, hp]
  · simp

/-- C1 witness for the amended theorem at a concrete corrupt mailbox. -/
theorem store_corrupt_witness :
    ∃ d', storeOfflineMessage
        { table := fun k => if k = dhtMsgKeyBase ++ "X" then some Blob.corruptBlob else none,
          getFails := fun _ => false, putFails := fun _ => false }
        "X" "A" "hi" 0 = Except.ok d' ∧
      d'.table (dhtMsgKeyBase ++ "X") = some (Blob.msgsBlob [⟨"A", 0, "hi"⟩]) :=
  store_corrupt_treated_empty _ "X" "A" "hi" 0 rfl (by decide) rfl

/-- C2: a successful store followed immediately by a fetch, with no
intervening writer, returns the previously stored sequence with exactly
one new message appended at the end, carrying the given body and sender;
both operations derive the same key, so the fetch sees exactly what the
store put. -/
theorem store_then_fetch (d : DHT) (X A b : String) (now : Int)
    (prev : List Message)
    (hg : d.getFails (dhtMsgKeyBase ++ X) = false)
    (hp : d.putFails (dhtMsgKeyBase ++ X) = false)
    (hprev : d.table (dhtMsgKeyBase ++ X) = some (Blob.msgsBlob prev) ∨
             (d.table (dhtMsgKeyBase ++ X) = none ∧ prev = [])) :
    ∃ d', storeOfflineMessage d X A b now = Except.ok d' ∧
      fetchOfflineMessages d' X = Except.ok (prev ++ [⟨A, now, b⟩]) := by
  refine ⟨{ d with table := (fun k =>
      if k = dhtMsgKeyBase ++ X then some (Blob.msgsBlob (prev ++ [⟨A, now, b⟩]))
      else d.table k) }, ?_, ?_⟩
  · unfold storeOfflineMessage GetValue PutValue jsonUnmarshalMsgs jsonMarshalMsgs
    rcases hprev with h | ⟨h, rfl⟩ <;> simp [hg, hp, h]
  · unfold fetchOfflineMessages GetValue jsonUnmarshalMsgs
    simp [hg]

/-- C2 witness at a concrete one-message mailbox. -/
theorem store_then_fetch_witness :
    ∃ d', storeOfflineMessage
        { table := fun k =>
            if k = dhtMsgKeyBase ++ "X" then some (Blob.msgsBlob [⟨"B", 1, "old"⟩])
            else none,
          getFails := fun _ => false, putFails := fun _ => false }
        "X" "A" "hello" 7 = Except.ok d' ∧
      fetchOfflineMessages d' "X" =
        Except.ok ([⟨"B", 1, "old"⟩] ++ [⟨"A", 7, "hello"⟩]) :=
  store_then_fetch _ "X" "A" "hello" 7 [⟨"B", 1, "old"⟩] rfl rfl
    (Or.inl (by decide))

/-- C3: when the Get for the mailbox key fails for any reason, not only
NotFound, storeOfflineMessage proceeds from the empty sequence and its
Put replaces whatever was stored under the key with a blob containing
only the single newly appended message. -/
theorem store_get_failure_resets (d : DHT) (X A b : String) (now : Int)
    (e : GetErr)
    (hg : GetValue d (dhtMsgKeyBase ++ X) = Except.error e)
    (hp : d.putFails (dhtMsgKeyBase ++ X) = false) :
    ∃ d', storeOfflineMessage d X A b now = Except.ok d' ∧
      d'.table (dhtMsgKeyBase ++ X) = some (Blob.msgsBlob [⟨A, now, b⟩]) := by
  refine ⟨{ d with table := (fun k =>
      if k = dhtMsgKeyBase ++ X then some (Blob.msgsBlob [⟨A, now, b⟩])
      else d.table k) }, ?_, ?_⟩
  · unfold storeOfflineMessage PutValue jsonMarshalMsgs
    simp [hg, hp]
  · simp

/-- C3 witness: a transient Get failure with a one-message mailbox
present; the store succeeds and the old entry is gone. -/
theorem store_get_failure_witness :
    ∃ d', storeOfflineMessage
        { table := fun k =>
            if k = dhtMsgKeyBase ++ "X" then some (Blob.msgsBlob [⟨"B", 1, "old"⟩])
            else none,
          getFails := fun _ => true, putFails := fun _ => false }
        "X" "A" "b" 9 = Except.ok d' ∧
      d'.table (dhtMsgKeyBase ++ "X") = some (Blob.msgsBlob [⟨"A", 9, "b"⟩]) :=
  store_get_failure_resets _ "X" "A" "b" 9 GetErr.other rfl rfl

/-- C4: fetching an identifier with no stored value yields the
NotFound-wrapping failure, an error distinct from the deserialization
failure, and never the deserialization failure; fetching a present blob
that fails to deserialize yields the deserialization failure. -/
theorem fetch_notfound_and_corrupt (d : DHT) (pid : String)
    (hg : d.getFails (dhtMsgKeyBase ++ pid) = false) :
    (d.table (dhtMsgKeyBase ++ pid) = none →
      fetchOfflineMessages d pid =
        Except.error (FetchErr.noMessagesOrError GetErr.notFound) ∧
      FetchErr.noMessagesOrError GetErr.notFound ≠ FetchErr.unmarshalErr) ∧
    (d.table (dhtMsgKeyBase ++ pid) = some Blob.corruptBlob →
      fetchOfflineMessages d pid = Except.error FetchErr.unmarshalErr) := by
  constructor
  · intro h
    refine ⟨?_, by decide⟩
    unfold fetchOfflineMessages GetValue
    simp [hg, h]
  · intro h
    unfold fetchOfflineMessages GetValue jsonUnmarshalMsgs
    simp [hg, h]

/-- C4 witness on an empty DHT. -/
theorem fetch_notfound_witness :
    fetchOfflineMessages
        { table := fun _ => none, getFails := fun _ => false,
          putFails := fun _ => false } "Q" =
      Except.error (FetchErr.noMessagesOrError GetErr.notFound) :=
  ((fetch_notfound_and_corrupt _ "Q" rfl).1 rfl).1

/- Stream handler theorems -/

/-- C5: a line that fails to parse is reported with its trimmed text and
skipped while the loop continues into the rest of the stream; in
particular a malformed frame followed by a well-formed one dispatches
exactly the one well-formed message. -/
theorem handler_skips_malformed (post : List String) (l1 l2 : String)
    (m : Message)
    (h1 : jsonUnmarshalMsg (trimSpace l1) = none)
    (h2 : jsonUnmarshalMsg (trimSpace l2) = some m) :
    handleStream (l1 :: post) =
      ((handleStream post).1, trimSpace l1 :: (handleStream post).2) ∧
    handleStream [l1, l2] = ([m], [trimSpace l1]) := by
  constructor
  · simp [handleStream, h1]
  · simp [handleStream, h1, h2]

/-- C5 witness: a garbage line then a canonical frame. -/
theorem handler_skips_malformed_witness :
    handleStream
        ["garbage\n", "\x7b\"from\":\"A\",\"when\":5,\"body\":\"hi\"\x7d\n"] =
      ([⟨"A", 5, "hi"⟩], ["garbage"]) :=
  (handler_skips_malformed []
      "garbage\n" "\x7b\"from\":\"A\",\"when\":5,\"body\":\"hi\"\x7d\n"
      ⟨"A", 5, "hi"⟩ (by decide) (by decide)).2

/-- C10: the handler trims each line before parsing, and a line that is
empty or all whitespace fails to parse: it is reported (its trimmed,
empty text joins the reported list) and skipped, not silently ignored
and not dispatched. -/
theorem handler_blank_is_malformed (line : String) (rest : List String)
    (h : trimSpace line = "") :
    jsonUnmarshalMsg (trimSpace line) = none ∧
    handleStream (line :: rest) =
      ((handleStream rest).1, "" :: (handleStream rest).2) := by
  constructor
  · rw [h]; rfl
  · simp [handleStream, h]
    rfl

/-- C10 witness: a line of whitespace ending in carriage return and
newline trims to empty and is reported as malformed. -/
theorem handler_blank_witness :
    handleStream ["  \t\r\n"] = ([], [""]) :=
  (handler_blank_is_malformed "  \t\r\n" [] (by decide)).2

/- No-newline lemmas for the wire frame -/

theorem nl_not_mem_escChar (c : Char) : '\n' ∉ escChar c := by
  unfold escChar
  split_ifs with h1 h2 h3 h4 h5
  · decide
  · decide
  · decide
  · decide
  · decide
  · simp only [List.mem_singleton]
    intro h
    exact h3 h.symm

theorem nl_not_mem_escChars (cs : List Char) : '\n' ∉ escChars cs := by
  induction cs with
  | nil => simp [escChars]
  | cons c cs ih =>
      intro h
      rw [escChars, List.mem_append] at h
      rcases h with h | h
      · exact nl_not_mem_escChar c h
      · exact ih h

theorem digitChar_ne_nl : ∀ d : Nat, d < 10 → digitChar d ≠ '\n' := by decide

theorem nl_not_mem_natToDigits (n : Nat) : '\n' ∉ natToDigits n := by
  induction n using Nat.strong_induction_on with
  | _ n ih =>
    rw [natToDigits]
    split
    · rename_i h
      intro hmem
      rw [List.mem_singleton] at hmem
      exact digitChar_ne_nl n h hmem.symm
    · rename_i h
      intro hmem
      rw [List.mem_append] at hmem
      rcases hmem with hm | hm
      · exact ih (n / 10) (Nat.div_lt_self (by omega) (by omega)) hm
      · rw [List.mem_singleton] at hm
        exact digitChar_ne_nl (n % 10) (Nat.mod_lt _ (by omega)) hm.symm

theorem nl_not_mem_intRepr (i : Int) : '\n' ∉ (intRepr i).toList := by
  unfold intRepr
  split
  · rw [toList_mk]
    intro h
    rw [List.mem_cons] at h
    rcases h with h | h
    · exact absurd h (by decide)
    · exact nl_not_mem_natToDigits _ h
  · rw [toList_mk]
    exact nl_not_mem_natToDigits _

theorem count_nl_jsonMarshalMsg (m : Message) :
    (jsonMarshalMsg m).toList.count '\n' = 0 := by
  rw [List.count_eq_zero]
  unfold jsonMarshalMsg
  intro h
  simp only [toList_append, List.mem_append] at h
  rcases h with ((((((h | h) | h) | h) | h) | h) | h)
  · exact absurd h (by decide)
  · exact nl_not_mem_escChars _ h
  · exact absurd h (by decide)
  · exact nl_not_mem_intRepr _ h
  · exact absurd h (by decide)
  · exact nl_not_mem_escChars _ h
  · exact absurd h (by decide)

theorem frame_single_nl (m : Message) :
    ((jsonMarshalMsg m ++ "\n").toList.count '\n') = 1 := by
  rw [toList_append, List.count_append, count_nl_jsonMarshalMsg]
  decide

/- Send theorems -/

/-- C7: a successful send opens exactly one stream, tagged with
protocolID, and writes exactly one frame on it: the marshalled
three-field message whose sender is the local id, whose timestamp is the
given current time and whose body is the given text, terminated by the
single newline of the frame; and on every path on which a stream was
opened, success or failure, it is closed exactly once. -/
theorem sendMessage_one_stream_one_frame (env : SendEnv) (localID : String)
    (now : Int) (pid body : String) :
    ((sendMessage env localID now pid body).err = none →
      (sendMessage env localID now pid body).opened = [(pid, protocolID)] ∧
      (sendMessage env localID now pid body).written =
        [jsonMarshalMsg ⟨localID, now, body⟩ ++ "\n"] ∧
      ((jsonMarshalMsg ⟨localID, now, body⟩ ++ "\n").toList.count '\n' = 1) ∧
      (sendMessage env localID now pid body).closes = 1) ∧
    ((sendMessage env localID now pid body).opened ≠ [] →
      (sendMessage env localID now pid body).closes = 1) := by
  unfold sendMessage
  split_ifs with hd hs hw
  · exact ⟨fun h => by simp at h, fun h => absurd rfl h⟩
  · exact ⟨fun h => by simp at h, fun h => absurd rfl h⟩
  · exact ⟨fun h => by simp at h, fun _ => rfl⟩
  · exact ⟨fun _ => ⟨rfl, rfl, frame_single_nl _, rfl⟩, fun _ => rfl⟩

/-- C7 witness in an environment where decode, stream open and write all
succeed. -/
theorem send_witness :
    (sendMessage
        { peerDecodeOK := fun _ => true, streamOK := fun _ => true,
          writeOK := fun _ => true } "L" 5 "P" "hi").opened =
      [("P", protocolID)] ∧
    (sendMessage
        { peerDecodeOK := fun _ => true, streamOK := fun _ => true,
          writeOK := fun _ => true } "L" 5 "P" "hi").written =
      [jsonMarshalMsg ⟨"L", 5, "hi"⟩ ++ "\n"] ∧
    ((jsonMarshalMsg ⟨"L", 5, "hi"⟩ ++ "\n").toList.count '\n' = 1) ∧
    (sendMessage
        { peerDecodeOK := fun _ => true, streamOK := fun _ => true,
          writeOK := fun _ => true } "L" 5 "P" "hi").closes = 1 :=
  (sendMessage_one_stream_one_frame
      { peerDecodeOK := fun _ => true, streamOK := fun _ => true,
        writeOK := fun _ => true } "L" 5 "P" "hi").1 rfl

/- Invite split lemmas -/

theorem splitLastP2p_cons (c : Char) (rest : List Char) :
    splitLastP2p (c :: rest) =
      match splitLastP2p rest with
      | some (pre, suf) => some (c :: pre, suf)
      | none =>
          if p2pPat <+: (c :: rest) then some ([], rest.drop 4)
          else none := by
  rfl

theorem splitLastP2p_eq_none (cs : List Char) (h : '/' ∉ cs) :
    splitLastP2p cs = none := by
  induction cs with
  | nil => rfl
  | cons c rest ih =>
      have hc : c ≠ '/' := by
        intro hc
        exact h (hc ▸ List.mem_cons_self c rest)
      have hr : '/' ∉ rest := fun hm => h (List.mem_cons_of_mem c hm)
      have hpre : ¬ (p2pPat <+: (c :: rest)) := by
        rintro ⟨t, ht⟩
        simp only [p2pPat, List.cons_append] at ht
        injection ht with h1 _
        exact hc h1.symm
      rw [splitLastP2p_cons, ih hr]
      simp [hpre]

theorem splitLastP2p_p2pTail (sfx : List Char) (h : '/' ∉ sfx) :
    splitLastP2p ('p' :: '2' :: 'p' :: '/' :: sfx) = none := by
  have s0 : splitLastP2p sfx = none := splitLastP2p_eq_none sfx h
  have s1 : splitLastP2p ('/' :: sfx) = none := by
    have hpre : ¬ (p2pPat <+: ('/' :: sfx)) := by
      rintro ⟨t, ht⟩
      simp only [p2pPat, List.cons_append] at ht
      injection ht with _ h2
      refine h ?_
      rw [← h2]
      exact List.mem_cons_of_mem _ (List.mem_cons_of_mem _
        (List.mem_cons_of_mem _ (List.mem_cons_self _ _)))
    rw [splitLastP2p_cons, s0]
    simp [hpre]
  have s2 : splitLastP2p ('p' :: '/' :: sfx) = none := by
    have hpre : ¬ (p2pPat <+: ('p' :: '/' :: sfx)) := by
      rintro ⟨t, ht⟩
      simp only [p2pPat, List.cons_append] at ht
      injection ht with h1 _
      exact absurd h1 (by decide)
    rw [splitLastP2p_cons, s1]
    simp [hpre]
  have s3 : splitLastP2p ('2' :: 'p' :: '/' :: sfx) = none := by
    have hpre : ¬ (p2pPat <+: ('2' :: 'p' :: '/' :: sfx)) := by
      rintro ⟨t, ht⟩
      simp only [p2pPat, List.cons_append] at ht
      injection ht with h1 _
      exact absurd h1 (by decide)
    rw [splitLastP2p_cons, s2]
    simp [hpre]
  have hpre : ¬ (p2pPat <+: ('p' :: '2' :: 'p' :: '/' :: sfx)) := by
    rintro ⟨t, ht⟩
    simp only [p2pPat, List.cons_append] at ht
    injection ht with h1 _
    exact absurd h1 (by decide)
  rw [splitLastP2p_cons, s3]
  simp [hpre]

theorem splitLastP2p_roundtrip (pre sfx : List Char) (h : '/' ∉ sfx) :
    splitLastP2p (pre ++ '/' :: 'p' :: '2' :: 'p' :: '/' :: sfx) =
      some (pre, sfx) := by
  induction pre with
  | nil =>
      have s0 := splitLastP2p_p2pTail sfx h
      have hpre : p2pPat <+: ('/' :: 'p' :: '2' :: 'p' :: '/' :: sfx) :=
        ⟨sfx, rfl⟩
      rw [List.nil_append, splitLastP2p_cons, s0]
      simp [hpre]
  | cons c pre ih =>
      rw [List.cons_append, splitLastP2p_cons, ih]

/- Connect and invite theorems -/

/-- C6: when the invite parses, connectPeer first adds the embedded
address for the embedded peer under the permanent TTL and then attempts
the connection; when the transport connection fails, the connect error is
returned and the registration is still present in the resulting
peerstore. -/
theorem connect_registers_despite_failure (h : HostState) (s a p : String)
    (hma : maValid s = true)
    (hdec : decodeInvite s = some (a, p))
    (hfail : h.connectOK p = false) :
    (connectPeer h s).2 = some ConnectErr.connectFailed ∧
    (a, AddrTTL.permanent) ∈ (connectPeer h s).1.peerstoreAddrs p := by
  unfold connectPeer
  rw [hdec]
  simp [hma, hfail]

/-- C6 witness: a concrete invite against a transport that refuses the
connection. -/
theorem connect_witness :
    (connectPeer
        { peerstoreAddrs := fun _ => [], connectOK := fun _ => false }
        "/ip4/1.2.3.4/tcp/4001/p2p/Qm1").2 = some ConnectErr.connectFailed ∧
    ("/ip4/1.2.3.4/tcp/4001", AddrTTL.permanent) ∈
      (connectPeer
          { peerstoreAddrs := fun _ => [], connectOK := fun _ => false }
          "/ip4/1.2.3.4/tcp/4001/p2p/Qm1").1.peerstoreAddrs "Qm1" :=
  connect_registers_despite_failure _ "/ip4/1.2.3.4/tcp/4001/p2p/Qm1"
    "/ip4/1.2.3.4/tcp/4001" "Qm1" (by decide) (by decide) rfl

/-- C8: for a multiaddr-shaped address and a peer identifier that is
nonempty and component-free, decoding the invite line built by appending
the /p2p/ suffix yields exactly the address and identifier back, the
line is itself a parseable multiaddr, and invite encoding produces
exactly one line per known local address. -/
theorem invite_roundtrip (a p : String) (addrs : List String)
    (hma : maValid a = true)
    (hp0 : p.toList ≠ [])
    (hp : '/' ∉ p.toList) :
    maValid (inviteLine a p) = true ∧
    decodeInvite (inviteLine a p) = some (a, p) ∧
    (printInvite addrs p).length = addrs.length := by
  have htl : (inviteLine a p).toList =
      a.toList ++ '/' :: 'p' :: '2' :: 'p' :: '/' :: p.toList := by
    unfold inviteLine
    rw [toList_append, toList_append, List.append_assoc]
    rfl
  refine ⟨?_, ?_, ?_⟩
  · rw [maValid, beq_iff_eq] at hma
    rw [maValid, beq_iff_eq, htl]
    cases ht : a.toList with
    | nil => rw [ht] at hma; simp at hma
    | cons c t =>
        rw [ht] at hma
        simp only [List.head?_cons, Option.some.injEq] at hma
        rw [List.cons_append]
        simp [hma]
  · unfold decodeInvite
    rw [htl, splitLastP2p_roundtrip a.toList p.toList hp]
    have hcond : ¬ (p.toList = [] ∨ '/' ∈ p.toList) := not_or.mpr ⟨hp0, hp⟩
    simp [hcond]
    exact ⟨hp0, hp⟩
  · simp [printInvite]

/-- C8 witness at a concrete address and identifier. -/
theorem invite_witness :
    maValid (inviteLine "/ip4/127.0.0.1/tcp/4001" "QmP") = true ∧
    decodeInvite (inviteLine "/ip4/127.0.0.1/tcp/4001" "QmP") =
      some ("/ip4/127.0.0.1/tcp/4001", "QmP") ∧
    (printInvite ["/ip4/127.0.0.1/tcp/4001"] "QmP").length = 1 :=
  invite_roundtrip "/ip4/127.0.0.1/tcp/4001" "QmP"
    ["/ip4/127.0.0.1/tcp/4001"] (by decide) (by decide) (by decide)

/- Identity theorems -/

/-- C9: when a record exists at the path, loadOrCreateIdentity
deserializes it instead of using the fresh key material, so two runs
against the same path return the same key and hence the same derived
peer identifier regardless of their randomness; when no record exists,
the fresh key is marshalled and written to the path with owner-only mode
0o600, and a subsequent run against the resulting filesystem returns
that same key. -/
theorem identity_stable (fs : FS) (path : String) (k m r1 r2 : Nat)
    (hr : fs.readFails path = false)
    (hw : fs.writeFails path = false) :
    (fs.files path = some ⟨KeyBlob.marshalled k, m⟩ →
      loadOrCreateIdentity fs r1 path = Except.ok (k, fs) ∧
      loadOrCreateIdentity fs r2 path = Except.ok (k, fs) ∧
      Except.map (fun r => peerIDFromKey r.1) (loadOrCreateIdentity fs r1 path) =
        Except.map (fun r => peerIDFromKey r.1) (loadOrCreateIdentity fs r2 path)) ∧
    (fs.files path = none →
      ∃ fs2, loadOrCreateIdentity fs r1 path = Except.ok (r1, fs2) ∧
        fs2.files path = some ⟨KeyBlob.marshalled r1, 0o600⟩ ∧
        loadOrCreateIdentity fs2 r2 path = Except.ok (r1, fs2)) := by
  constructor
  · intro h
    refine ⟨?_, ?_, ?_⟩ <;>
      simp [loadOrCreateIdentity, h, hr, unmarshalPrivateKey]
  · intro h
    refine ⟨{ fs with files := (fun q =>
        if q = path then some ⟨KeyBlob.marshalled r1, 0o600⟩
        else fs.files q) }, ?_, ?_, ?_⟩
    · simp [loadOrCreateIdentity, h, hw, marshalPrivateKey]
    · simp
    · simp [loadOrCreateIdentity, hr, unmarshalPrivateKey, marshalPrivateKey]

/-- C9 witness: a first run against an empty filesystem writes the fresh
key with mode 0o600 and a second run with different randomness returns
the same key. -/
theorem identity_witness :
    ∃ fs2, loadOrCreateIdentity
        { files := fun _ => none, readFails := fun _ => false,
          writeFails := fun _ => false } 11 "p2pchat_id.key" =
        Except.ok (11, fs2) ∧
      fs2.files "p2pchat_id.key" = some ⟨KeyBlob.marshalled 11, 0o600⟩ ∧
      loadOrCreateIdentity fs2 22 "p2pchat_id.key" = Except.ok (11, fs2) :=
  (identity_stable _ "p2pchat_id.key" 0 0 11 22 rfl rfl).2 rfl

end P2pChat
